import Mathlib

/-!
Verification of the `sesh` session reconciler.

This file shallowly embeds the reconciliation core of the repository:

* the configuration data model (`src/conf.rs`: `Config`, `WindowConf`),
* the backend state and operations of the in-memory backend
  (`src/tmux.rs`: `MockTmuxBackend`) together with the availability check
  of the process-backed backend (`RealTmuxBackend::check_available`, which
  can fail when the external binary is missing; the in-memory backend's
  check always succeeds, which corresponds to `available = true`),
* the reconciler operations (`src/app.rs`: `run_status`, `run_up`,
  `run_down`, `run_restart`, `run_window_remove`; the bodies match the
  backend-parametric test helpers `run_up_with_backend` /
  `run_down_with_backend`, which share the production logic minus
  printing).

Backend operations are pure state transformers `BackendState → BackendState
× Except String _`; a failing operation returns the (unchanged or partial)
state together with the error, mirroring the `Arc<Mutex<MockState>>` whose
contents persist across failed calls. The reconciler functions additionally
return the list of backend calls they issued, one `Call` entry per backend
invocation in the source, so that claims about which calls are (not) made
can be stated.
-/

/-- `WindowConf` from `src/conf.rs`: optional window name, optional
argv-style startup command, optional `default` flag (unused by the
reconciler). -/
structure WindowConf where
  name : Option String
  command : Option (List String)
  default : Option Bool
deriving DecidableEq

/-- `Config` from `src/conf.rs`: session name plus ordered window
declarations. -/
structure Config where
  name : String
  window : List WindowConf
deriving DecidableEq

/-- The in-memory backend's session map: session name to ordered window
names, as an association list standing in for the Rust `HashMap`. -/
abbrev Sessions := List (String × List String)

/-- First-match lookup in the session map (`HashMap::get`). -/
def lookupSession (ss : Sessions) (name : String) : Option (List String) :=
  match ss with
  | [] => none
  | (k, v) :: rest => if k == name then some v else lookupSession rest name

/-- `HashMap::insert`: replace the value at an existing key, else append a
fresh entry. -/
def insertSession (ss : Sessions) (name : String) (ws : List String) : Sessions :=
  match ss with
  | [] => [(name, ws)]
  | (k, v) :: rest =>
    if k == name then (k, ws) :: rest else (k, v) :: insertSession rest name ws

/-- `HashMap::get_mut` followed by an in-place edit: rewrite the value at
the first matching key, leave the map unchanged when the key is absent. -/
def updateSession (ss : Sessions) (name : String) (f : List String → List String) : Sessions :=
  match ss with
  | [] => []
  | (k, v) :: rest =>
    if k == name then (k, f v) :: rest else (k, v) :: updateSession rest name f

/-- `HashMap::remove`: drop every entry at the key. -/
def removeSession (ss : Sessions) (name : String) : Sessions :=
  match ss with
  | [] => []
  | (k, v) :: rest =>
    if k == name then removeSession rest name else (k, v) :: removeSession rest name

/-- Observable backend state: the `MockState` of `src/tmux.rs` (session
map and log of submitted commands) plus an `available` flag embedding the
environment consulted by `check_available` (the external binary being on
the `PATH`; the in-memory backend always reports available). -/
structure BackendState where
  available : Bool
  sessions : Sessions
  commandsSent : List (String × Nat × List String)
deriving DecidableEq

/-- One backend invocation, for recording which calls a reconciler run
issues. -/
inductive Call where
  | checkAvailable : Call
  | hasSession (name : String) : Call
  | listWindows (session : String) : Call
  | newSession (name : String) : Call
  | newWindow (session : String) (windowName : Option String) (targetIndex : Nat) : Call
  | sendKeys (session : String) (windowIndex : Nat) (command : List String) : Call
  | killSession (name : String) : Call
  | killWindow (session : String) (windowName : String) : Call
  | renameWindow (session : String) (windowIndex : Nat) (newName : String) : Call
  | attachSession (name : String) : Call
deriving DecidableEq

/-- `check_available`: succeeds when the external program is invocable
(`RealTmuxBackend` runs `tmux -V`; `MockTmuxBackend` always succeeds). -/
def check_available (st : BackendState) : Except String Unit :=
  if st.available then .ok () else .error "tmux is not installed or not available in PATH"

/-- `MockTmuxBackend::has_session`: key membership in the session map. -/
def has_session (st : BackendState) (name : String) : Bool :=
  (lookupSession st.sessions name).isSome

/-- `MockTmuxBackend::list_windows`: the session's window names, or an
error when the session is absent. -/
def list_windows (st : BackendState) (session : String) : Except String (List String) :=
  match lookupSession st.sessions session with
  | some ws => .ok ws
  | none => .error ("Session \x27" ++ session ++ "\x27 not found")

/-- `MockTmuxBackend::new_session`: error if the session already exists,
else create it with the single default window `"bash"`. -/
def new_session (st : BackendState) (name : String) (_detached : Bool) :
    BackendState × Except String Unit :=
  if (lookupSession st.sessions name).isSome then
    (st, .error ("Session \x27" ++ name ++ "\x27 already exists"))
  else
    ({ st with sessions := insertSession st.sessions name ["bash"] }, .ok ())

/-- `MockTmuxBackend::new_window`: error if the session is absent, else
append the window name (`"unnamed"` when no name is given). The target
index is accepted and ignored, as in the source. -/
def new_window (st : BackendState) (session : String) (window_name : Option String)
    (_target_index : Option Nat) : BackendState × Except String Unit :=
  match lookupSession st.sessions session with
  | none => (st, .error ("Session \x27" ++ session ++ "\x27 not found"))
  | some _ =>
    let name := window_name.getD "unnamed"
    ({ st with sessions := updateSession st.sessions session (fun ws => ws ++ [name]) }, .ok ())

/-- `MockTmuxBackend::send_keys`: error if the session is absent, else
record the submitted command. -/
def send_keys (st : BackendState) (session : String) (window_index : Nat)
    (command : List String) : BackendState × Except String Unit :=
  if (lookupSession st.sessions session).isSome then
    ({ st with commandsSent := st.commandsSent ++ [(session, window_index, command)] }, .ok ())
  else
    (st, .error ("Session \x27" ++ session ++ "\x27 not found"))

/-- `MockTmuxBackend::kill_session`: error if the session is absent, else
remove it. -/
def kill_session (st : BackendState) (name : String) : BackendState × Except String Unit :=
  if (lookupSession st.sessions name).isSome then
    ({ st with sessions := removeSession st.sessions name }, .ok ())
  else
    (st, .error ("Session \x27" ++ name ++ "\x27 not found"))

/-- The argv that `RealTmuxBackend::send_keys` passes to the external
`tmux` binary: target `session:index`, the command joined with single
spaces (no quoting or escaping), then the Enter keystroke `C-m`. -/
def send_keys_argv (session : String) (window_index : Nat) (command : List String) :
    List String :=
  let target := session ++ ":" ++ toString window_index
  let cmd_str := String.intercalate " " command
  ["send-keys", "-t", target, cmd_str, "C-m"]

/-- The window loop of `run_up` (`src/app.rs`, `run_up` /
`run_up_with_backend`): walk the declared windows in order with the
enumeration index `idx`, against the snapshot `existing` of window names
taken before the loop. A window whose declared name occurs in the snapshot
is skipped; the window at index 0 of a freshly created session maps onto
the implicit first window (`send_keys` only, no `new_window`); every other
window is created with `new_window` and then receives its command, if any,
via `send_keys`. Errors abort the remaining iterations, as `?` does.
`windowExists` is the loop's existence test (`src/app.rs`): the declared
name is present and occurs among the snapshot names; an unnamed
declaration is never treated as existing. -/
def windowExists (wc : WindowConf) (existing : List String) : Bool :=
  match wc.name with
  | some n => existing.any (fun w => w == n)
  | none => false

/-- See `windowExists` above: the per-window body of `run_up`. -/
def upLoop (sname : String) (sessionExisted : Bool) (existing : List String)
    (idx : Nat) (ws : List WindowConf) (st : BackendState) :
    BackendState × List Call × Except String Unit :=
  match ws with
  | [] => (st, [], .ok ())
  | wc :: rest =>
    let window_name := wc.name
    if windowExists wc existing then
      upLoop sname sessionExisted existing (idx + 1) rest st
    else if idx == 0 && !sessionExisted then
      match wc.command with
      | some command =>
        match send_keys st sname idx command with
        | (st1, .error e) => (st1, [Call.sendKeys sname idx command], .error e)
        | (st1, .ok _) =>
          let (st2, tr, r) := upLoop sname sessionExisted existing (idx + 1) rest st1
          (st2, Call.sendKeys sname idx command :: tr, r)
      | none => upLoop sname sessionExisted existing (idx + 1) rest st
    else
      match new_window st sname window_name (some idx) with
      | (st1, .error e) => (st1, [Call.newWindow sname window_name idx], .error e)
      | (st1, .ok _) =>
        match wc.command with
        | some command =>
          match send_keys st1 sname idx command with
          | (st2, .error e) =>
            (st2, [Call.newWindow sname window_name idx, Call.sendKeys sname idx command],
              .error e)
          | (st2, .ok _) =>
            let (st3, tr, r) := upLoop sname sessionExisted existing (idx + 1) rest st2
            (st3, Call.newWindow sname window_name idx :: Call.sendKeys sname idx command :: tr, r)
        | none =>
          let (st2, tr, r) := upLoop sname sessionExisted existing (idx + 1) rest st1
          (st2, Call.newWindow sname window_name idx :: tr, r)

/-- `run_up` (`src/app.rs`): check availability, query the session, create
it (detached) when missing, snapshot the existing window names
(`list_windows` for a pre-existing session, the empty list for a fresh
one), then run the window loop. The source tests `session_exists` twice in
sequence (once to create, once to snapshot); branching on it once here
merges those two tests of the same unchanging value. -/
def run_up (config : Config) (st : BackendState) :
    BackendState × List Call × Except String Unit :=
  match check_available st with
  | .error e => (st, [Call.checkAvailable], .error e)
  | .ok _ =>
    let session_exists := has_session st config.name
    if session_exists then
      match list_windows st config.name with
      | .error e =>
        (st, [Call.checkAvailable, Call.hasSession config.name, Call.listWindows config.name],
          .error e)
      | .ok existing_windows =>
        let (st2, tr, r) := upLoop config.name true existing_windows 0 config.window st
        (st2,
          [Call.checkAvailable, Call.hasSession config.name, Call.listWindows config.name] ++ tr,
          r)
    else
      match new_session st config.name true with
      | (st1, .error e) =>
        (st1, [Call.checkAvailable, Call.hasSession config.name, Call.newSession config.name],
          .error e)
      | (st1, .ok _) =>
        let (st2, tr, r) := upLoop config.name false [] 0 config.window st1
        (st2,
          [Call.checkAvailable, Call.hasSession config.name, Call.newSession config.name] ++ tr,
          r)

/-- `run_down` (`src/app.rs`): check availability, query the session;
a missing session is reported as not running and is a success; otherwise
the session is killed. -/
def run_down (config : Config) (st : BackendState) :
    BackendState × List Call × Except String Unit :=
  match check_available st with
  | .error e => (st, [Call.checkAvailable], .error e)
  | .ok _ =>
    if has_session st config.name then
      match kill_session st config.name with
      | (st1, r) =>
        (st1, [Call.checkAvailable, Call.hasSession config.name, Call.killSession config.name], r)
    else
      (st, [Call.checkAvailable, Call.hasSession config.name], .ok ())

/-- `run_restart` (`src/app.rs`): `run_down(&cli)?; run_up(&cli)?` — the
`?` on `run_down` propagates its error, so `run_up` runs only when
`run_down` returned `Ok`. -/
def run_restart (config : Config) (st : BackendState) :
    BackendState × List Call × Except String Unit :=
  match run_down config st with
  | (st1, tr1, .error e) => (st1, tr1, .error e)
  | (st1, tr1, .ok _) =>
    let (st2, tr2, r) := run_up config st1
    (st2, tr1 ++ tr2, r)

/-- The per-window status marks of `run_status` (`src/app.rs`): for the
declared window at enumeration index `idx`, its effective name (declared
name, else the fallback `"unnamed"`) and whether it is judged running:
the effective name occurs among the live window names, or the index is
below the live window count and the effective name is `"unnamed"`. -/
def statusMarks (running_windows : List String) (idx : Nat) (ws : List WindowConf) :
    List (String × Bool) :=
  match ws with
  | [] => []
  | wc :: rest =>
    let window_name := (wc.name.map (fun s => s)).getD "unnamed"
    let is_running :=
      running_windows.any (fun w => w == window_name) ||
        (decide (idx < running_windows.length) && window_name == "unnamed")
    (window_name, is_running) :: statusMarks running_windows (idx + 1) rest

/-- The observable report of `run_status`. -/
inductive StatusReport where
  | notRunning : StatusReport
  | running (marks : List (String × Bool)) : StatusReport
deriving DecidableEq

/-- `run_status` (`src/app.rs`): check availability; a missing session is
reported as not running (a success); otherwise list the live windows and
mark each declared window per `statusMarks`. -/
def run_status (config : Config) (st : BackendState) : Except String StatusReport :=
  match check_available st with
  | .error e => .error e
  | .ok _ =>
    if has_session st config.name then
      match list_windows st config.name with
      | .error e => .error e
      | .ok running_windows => .ok (.running (statusMarks running_windows 0 config.window))
    else
      .ok .notRunning

/-- `run_window_remove` (`src/app.rs`): with a name, `retain` every window
declaration whose name differs from it (an unnamed declaration is always
kept); if nothing was removed, fail with the not-found error and write
nothing; otherwise the returned `Config` is what gets written to disk.
With no name, fail with the validation error. -/
def run_window_remove (config : Config) (nameArg : Option String) : Except String Config :=
  match nameArg with
  | some name =>
    let initial_len := config.window.length
    let retained := config.window.filter (fun w => (w.name.map (fun n => n != name)).getD true)
    if retained.length == initial_len then
      .error ("Window \x27" ++ name ++ "\x27 not found in config")
    else
      .ok { config with window := retained }
  | none => .error "Must specify \x2d-name to remove a window"

deriving instance DecidableEq for Except

/-- `b` extends `a`: every session of `a` is still present in `b`, with its
window names an initial segment of the session's window names in `b`. -/
def sessionsExtend (a b : BackendState) : Prop :=
  ∀ s ws, lookupSession a.sessions s = some ws →
    ∃ t, lookupSession b.sessions s = some (ws ++ t)

/-- The destructive backend calls: the three operations that can shrink or
rename live state. -/
def Call.isDestructive : Call → Bool
  | .killSession _ => true
  | .killWindow _ _ => true
  | .renameWindow _ _ _ => true
  | _ => false

/-! ### Concrete fixtures (used by witnesses and counterexamples) -/

/-- A named window declaration with a startup command. -/
def wEditor : WindowConf := { name := some "editor", command := some ["vim"], default := none }

/-- A second named window declaration with a multi-word command. -/
def wServer : WindowConf :=
  { name := some "server", command := some ["npm", "run", "dev"], default := none }

/-- A window declaration named `"a"` with no command. -/
def wA : WindowConf := { name := some "a", command := none, default := none }

/-- A second, distinct window declaration also named `"a"`. -/
def wA2 : WindowConf := { name := some "a", command := some ["x"], default := none }

/-- A one-window declaration for session `"s"`. -/
def cfgOne : Config := { name := "s", window := [wEditor] }

/-- The two-window declaration from the spec's scenario. -/
def cfgMulti : Config := { name := "multi-window", window := [wEditor, wServer] }

/-- A declaration with two windows sharing the name `"a"`. -/
def cfgDup : Config := { name := "s", window := [wA, wA2] }

/-- An available backend with no sessions. -/
def emptyState : BackendState := { available := true, sessions := [], commandsSent := [] }

/-- A backend whose external binary is unavailable. -/
def downState : BackendState := { available := false, sessions := [], commandsSent := [] }

/-- An available backend already holding session `"s"` with its implicit
first window. -/
def stOneSession : BackendState :=
  { available := true, sessions := [("s", ["bash"])], commandsSent := [] }

/-- The backend state after `run_up cfgOne stOneSession`: the declared
window was created and its command sent. -/
def stOneAfter : BackendState :=
  { available := true, sessions := [("s", ["bash", "editor"])],
    commandsSent := [("s", 0, ["vim"])] }

/-- The backend state after `run_up cfgMulti emptyState`: the session was
created, the index-0 command sent into the implicit window, and the
second window created with its command sent. -/
def stMultiAfter : BackendState :=
  { available := true, sessions := [("multi-window", ["bash", "server"])],
    commandsSent := [("multi-window", 0, ["vim"]),
      ("multi-window", 1, ["npm", "run", "dev"])] }

/-! ### Helper lemmas about the session map -/

theorem any_beq_iff_mem (l : List String) (n : String) :
    (l.any (fun w => w == n) = true) ↔ n ∈ l := by
  rw [List.any_eq_true]
  constructor
  · rintro ⟨x, hx, hbx⟩
    rw [beq_iff_eq] at hbx
    exact hbx ▸ hx
  · intro h
    exact ⟨n, h, by simp⟩

theorem lookupSession_insertSession_self (ss : Sessions) (n : String) (ws : List String) :
    lookupSession (insertSession ss n ws) n = some ws := by
  induction ss with
  | nil => simp [insertSession, lookupSession]
  | cons head tail ih =>
    obtain ⟨k, v⟩ := head
    by_cases h : k = n
    · subst h
      simp [insertSession, lookupSession]
    · have hb : (k == n) = false := by simp [h]
      simp [insertSession, lookupSession, hb, ih]

theorem lookupSession_insertSession_other (ss : Sessions) (n m : String) (ws : List String)
    (h : m ≠ n) : lookupSession (insertSession ss n ws) m = lookupSession ss m := by
  induction ss with
  | nil =>
    have hb : (n == m) = false := by simp [Ne.symm h]
    simp [insertSession, lookupSession, hb]
  | cons head tail ih =>
    obtain ⟨k, v⟩ := head
    by_cases hk : k = n
    · subst hk
      have hb : (k == m) = false := by simp [Ne.symm h]
      simp [insertSession, lookupSession, hb]
    · have hb : (k == n) = false := by simp [hk]
      by_cases hm : k = m
      · subst hm
        simp [insertSession, lookupSession, hb]
      · have hbm : (k == m) = false := by simp [hm]
        simp [insertSession, lookupSession, hb, hbm, ih]

theorem lookupSession_updateSession (ss : Sessions) (n m : String)
    (f : List String → List String) :
    lookupSession (updateSession ss n f) m =
      if m = n then (lookupSession ss n).map f else lookupSession ss m := by
  induction ss with
  | nil => simp [updateSession, lookupSession]
  | cons head tail ih =>
    obtain ⟨k, v⟩ := head
    by_cases hk : k = n
    · subst hk
      by_cases hm : m = k
      · subst hm
        simp [updateSession, lookupSession]
      · have hb : (k == m) = false := by
          simp only [beq_eq_false_iff_ne]
          exact Ne.symm hm
        simp [updateSession, lookupSession, hb, hm]
    · have hb : (k == n) = false := by simp [hk]
      by_cases hm : k = m
      · subst hm
        have hmn : ¬ (k = n) := hk
        simp [updateSession, lookupSession, hb, hmn]
      · have hbm : (k == m) = false := by simp [hm]
        simp [updateSession, lookupSession, hb, hbm, ih]

theorem lookupSession_removeSession_self (ss : Sessions) (n : String) :
    lookupSession (removeSession ss n) n = none := by
  induction ss with
  | nil => simp [removeSession, lookupSession]
  | cons head tail ih =>
    obtain ⟨k, v⟩ := head
    by_cases hk : k = n
    · subst hk
      simp [removeSession, ih]
    · have hb : (k == n) = false := by simp [hk]
      simp [removeSession, lookupSession, hb, ih]

theorem lookupSession_removeSession_other (ss : Sessions) (n m : String) (h : m ≠ n) :
    lookupSession (removeSession ss n) m = lookupSession ss m := by
  induction ss with
  | nil => simp [removeSession, lookupSession]
  | cons head tail ih =>
    obtain ⟨k, v⟩ := head
    by_cases hk : k = n
    · subst hk
      have hb : (k == m) = false := by simp [Ne.symm h]
      simp [removeSession, lookupSession, hb, ih]
    · have hb : (k == n) = false := by simp [hk]
      by_cases hm : k = m
      · subst hm
        simp [removeSession, lookupSession, hb]
      · have hbm : (k == m) = false := by simp [hm]
        simp [removeSession, lookupSession, hb, hbm, ih]

/-! ### Equation lemmas for the backend operations -/

theorem new_session_of_none (st : BackendState) (n : String) (d : Bool)
    (h : lookupSession st.sessions n = none) :
    new_session st n d = ({ st with sessions := insertSession st.sessions n ["bash"] }, .ok ()) := by
  simp [new_session, h]

theorem new_session_of_some (st : BackendState) (n : String) (d : Bool) (w : List String)
    (h : lookupSession st.sessions n = some w) :
    new_session st n d = (st, .error ("Session \x27" ++ n ++ "\x27 already exists")) := by
  simp [new_session, h]

theorem new_window_of_none (st : BackendState) (s : String) (wn : Option String)
    (i : Option Nat) (h : lookupSession st.sessions s = none) :
    new_window st s wn i = (st, .error ("Session \x27" ++ s ++ "\x27 not found")) := by
  simp [new_window, h]

theorem new_window_of_some (st : BackendState) (s : String) (wn : Option String)
    (i : Option Nat) (w : List String) (h : lookupSession st.sessions s = some w) :
    new_window st s wn i =
      ({ st with sessions :=
          updateSession st.sessions s (fun ws => ws ++ [wn.getD "unnamed"]) }, .ok ()) := by
  simp [new_window, h]

theorem send_keys_of_none (st : BackendState) (s : String) (i : Nat) (c : List String)
    (h : lookupSession st.sessions s = none) :
    send_keys st s i c = (st, .error ("Session \x27" ++ s ++ "\x27 not found")) := by
  simp [send_keys, h]

theorem send_keys_of_some (st : BackendState) (s : String) (i : Nat) (c : List String)
    (w : List String) (h : lookupSession st.sessions s = some w) :
    send_keys st s i c =
      ({ st with commandsSent := st.commandsSent ++ [(s, i, c)] }, .ok ()) := by
  simp [send_keys, h]

theorem kill_session_of_none (st : BackendState) (n : String)
    (h : lookupSession st.sessions n = none) :
    kill_session st n = (st, .error ("Session \x27" ++ n ++ "\x27 not found")) := by
  simp [kill_session, h]

theorem kill_session_of_some (st : BackendState) (n : String) (w : List String)
    (h : lookupSession st.sessions n = some w) :
    kill_session st n = ({ st with sessions := removeSession st.sessions n }, .ok ()) := by
  simp [kill_session, h]

theorem send_keys_fst_sessions (st : BackendState) (s : String) (i : Nat) (c : List String) :
    (send_keys st s i c).1.sessions = st.sessions := by
  cases h : lookupSession st.sessions s with
  | none => simp [send_keys_of_none st s i c h]
  | some w => simp [send_keys_of_some st s i c w h]

/-! ### The extension order on live state -/

theorem sessionsExtend_refl (a : BackendState) : sessionsExtend a a :=
  fun _ ws h => ⟨[], by simp [h]⟩

theorem sessionsExtend_trans {a b c : BackendState}
    (h1 : sessionsExtend a b) (h2 : sessionsExtend b c) : sessionsExtend a c := by
  intro s ws h
  obtain ⟨t1, hb⟩ := h1 s ws h
  obtain ⟨t2, hc⟩ := h2 s (ws ++ t1) hb
  exact ⟨t1 ++ t2, by rw [hc, List.append_assoc]⟩

theorem sessionsExtend_of_sessions_eq {a b : BackendState}
    (h : b.sessions = a.sessions) : sessionsExtend a b := by
  intro s ws hs
  exact ⟨[], by rw [h, hs, List.append_nil]⟩

theorem new_session_extend (st : BackendState) (n : String) (d : Bool) :
    sessionsExtend st (new_session st n d).1 := by
  intro s ws h
  cases hn : lookupSession st.sessions n with
  | some w => exact ⟨[], by simp [new_session_of_some st n d w hn, h]⟩
  | none =>
    have hsn : s ≠ n := by
      intro he
      rw [he, hn] at h
      exact Option.noConfusion h
    refine ⟨[], ?_⟩
    rw [new_session_of_none st n d hn]
    simpa [lookupSession_insertSession_other _ _ _ _ hsn] using h

theorem new_window_extend (st : BackendState) (s : String) (wn : Option String)
    (i : Option Nat) : sessionsExtend st (new_window st s wn i).1 := by
  intro s' ws h
  cases hn : lookupSession st.sessions s with
  | none => exact ⟨[], by simp [new_window_of_none st s wn i hn, h]⟩
  | some w =>
    rw [new_window_of_some st s wn i w hn]
    by_cases hs : s' = s
    · subst hs
      refine ⟨[wn.getD "unnamed"], ?_⟩
      simp only [lookupSession_updateSession, if_pos rfl]
      rw [h] at hn ⊢
      simp
    · refine ⟨[], ?_⟩
      simp only [lookupSession_updateSession, if_neg hs]
      simp [h]

theorem send_keys_extend (st : BackendState) (s : String) (i : Nat) (c : List String) :
    sessionsExtend st (send_keys st s i c).1 :=
  sessionsExtend_of_sessions_eq (send_keys_fst_sessions st s i c)

/-! ### Branch equations for the window loop -/

theorem upLoop_nil (sname : String) (b : Bool) (E : List String) (idx : Nat)
    (st : BackendState) : upLoop sname b E idx [] st = (st, [], .ok ()) := rfl

theorem upLoop_skip (sname : String) (b : Bool) (E : List String) (idx : Nat)
    (wc : WindowConf) (rest : List WindowConf) (st : BackendState)
    (hex : windowExists wc E = true) :
    upLoop sname b E idx (wc :: rest) st = upLoop sname b E (idx + 1) rest st := by
  rw [upLoop]
  simp [hex]

theorem upLoop_consume_none (sname : String) (b : Bool) (E : List String) (idx : Nat)
    (wc : WindowConf) (rest : List WindowConf) (st : BackendState)
    (hex : windowExists wc E = false) (hc : (idx == 0 && !b) = true)
    (hcmd : wc.command = none) :
    upLoop sname b E idx (wc :: rest) st = upLoop sname b E (idx + 1) rest st := by
  rw [upLoop]
  simp [hex, hc, hcmd]

theorem upLoop_consume_err (sname : String) (b : Bool) (E : List String) (idx : Nat)
    (wc : WindowConf) (rest : List WindowConf) (st st1 : BackendState)
    (cmd : List String) (e : String)
    (hex : windowExists wc E = false) (hc : (idx == 0 && !b) = true)
    (hcmd : wc.command = some cmd) (hsk : send_keys st sname idx cmd = (st1, .error e)) :
    upLoop sname b E idx (wc :: rest) st =
      (st1, [Call.sendKeys sname idx cmd], .error e) := by
  rw [upLoop]
  simp [hex, hc, hcmd, hsk]

theorem upLoop_consume_ok (sname : String) (b : Bool) (E : List String) (idx : Nat)
    (wc : WindowConf) (rest : List WindowConf) (st st1 : BackendState)
    (cmd : List String) (u : Unit)
    (hex : windowExists wc E = false) (hc : (idx == 0 && !b) = true)
    (hcmd : wc.command = some cmd) (hsk : send_keys st sname idx cmd = (st1, .ok u)) :
    upLoop sname b E idx (wc :: rest) st =
      ((upLoop sname b E (idx + 1) rest st1).1,
        Call.sendKeys sname idx cmd :: (upLoop sname b E (idx + 1) rest st1).2.1,
        (upLoop sname b E (idx + 1) rest st1).2.2) := by
  rw [upLoop]
  cases hu : upLoop sname b E (idx + 1) rest st1 with
  | mk st2 p =>
    cases p with
    | mk tr r => simp [hex, hc, hcmd, hsk, hu]

theorem upLoop_create_err (sname : String) (b : Bool) (E : List String) (idx : Nat)
    (wc : WindowConf) (rest : List WindowConf) (st st1 : BackendState) (e : String)
    (hex : windowExists wc E = false) (hc : (idx == 0 && !b) = false)
    (hnw : new_window st sname wc.name (some idx) = (st1, .error e)) :
    upLoop sname b E idx (wc :: rest) st =
      (st1, [Call.newWindow sname wc.name idx], .error e) := by
  rw [upLoop]
  simp [hex, hc, hnw]

theorem upLoop_create_none (sname : String) (b : Bool) (E : List String) (idx : Nat)
    (wc : WindowConf) (rest : List WindowConf) (st st1 : BackendState) (u : Unit)
    (hex : windowExists wc E = false) (hc : (idx == 0 && !b) = false)
    (hnw : new_window st sname wc.name (some idx) = (st1, .ok u))
    (hcmd : wc.command = none) :
    upLoop sname b E idx (wc :: rest) st =
      ((upLoop sname b E (idx + 1) rest st1).1,
        Call.newWindow sname wc.name idx :: (upLoop sname b E (idx + 1) rest st1).2.1,
        (upLoop sname b E (idx + 1) rest st1).2.2) := by
  rw [upLoop]
  cases hu : upLoop sname b E (idx + 1) rest st1 with
  | mk st2 p =>
    cases p with
    | mk tr r => simp [hex, hc, hcmd, hnw, hu]

theorem upLoop_create_sk_err (sname : String) (b : Bool) (E : List String) (idx : Nat)
    (wc : WindowConf) (rest : List WindowConf) (st st1 st2 : BackendState)
    (cmd : List String) (e : String) (u : Unit)
    (hex : windowExists wc E = false) (hc : (idx == 0 && !b) = false)
    (hnw : new_window st sname wc.name (some idx) = (st1, .ok u))
    (hcmd : wc.command = some cmd) (hsk : send_keys st1 sname idx cmd = (st2, .error e)) :
    upLoop sname b E idx (wc :: rest) st =
      (st2, [Call.newWindow sname wc.name idx, Call.sendKeys sname idx cmd], .error e) := by
  rw [upLoop]
  simp [hex, hc, hcmd, hnw, hsk]

theorem upLoop_create_sk_ok (sname : String) (b : Bool) (E : List String) (idx : Nat)
    (wc : WindowConf) (rest : List WindowConf) (st st1 st2 : BackendState)
    (cmd : List String) (u v : Unit)
    (hex : windowExists wc E = false) (hc : (idx == 0 && !b) = false)
    (hnw : new_window st sname wc.name (some idx) = (st1, .ok u))
    (hcmd : wc.command = some cmd) (hsk : send_keys st1 sname idx cmd = (st2, .ok v)) :
    upLoop sname b E idx (wc :: rest) st =
      ((upLoop sname b E (idx + 1) rest st2).1,
        Call.newWindow sname wc.name idx :: Call.sendKeys sname idx cmd ::
          (upLoop sname b E (idx + 1) rest st2).2.1,
        (upLoop sname b E (idx + 1) rest st2).2.2) := by
  rw [upLoop]
  cases hu : upLoop sname b E (idx + 1) rest st2 with
  | mk st3 p =>
    cases p with
    | mk tr r => simp [hex, hc, hcmd, hnw, hsk, hu]

theorem upLoop_extend (sname : String) (b : Bool) (E : List String)
    (ws : List WindowConf) (idx : Nat) (st : BackendState) :
    sessionsExtend st (upLoop sname b E idx ws st).1 := by
  induction ws generalizing idx st with
  | nil => exact sessionsExtend_refl st
  | cons wc rest ih =>
    cases hex : windowExists wc E with
    | true =>
      rw [upLoop_skip sname b E idx wc rest st hex]
      exact ih (idx + 1) st
    | false =>
      cases hc : (idx == 0 && !b) with
      | true =>
        cases hcmd : wc.command with
        | none =>
          rw [upLoop_consume_none sname b E idx wc rest st hex hc hcmd]
          exact ih (idx + 1) st
        | some cmd =>
          cases hsk : send_keys st sname idx cmd with
          | mk st1 r =>
            have h1 : sessionsExtend st st1 := by
              have h2 := send_keys_extend st sname idx cmd
              rw [hsk] at h2
              exact h2
            cases r with
            | error e =>
              rw [upLoop_consume_err sname b E idx wc rest st st1 cmd e hex hc hcmd hsk]
              exact h1
            | ok u =>
              rw [upLoop_consume_ok sname b E idx wc rest st st1 cmd u hex hc hcmd hsk]
              exact sessionsExtend_trans h1 (ih (idx + 1) st1)
      | false =>
        cases hnw : new_window st sname wc.name (some idx) with
        | mk st1 r =>
          have h1 : sessionsExtend st st1 := by
            have h2 := new_window_extend st sname wc.name (some idx)
            rw [hnw] at h2
            exact h2
          cases r with
          | error e =>
            rw [upLoop_create_err sname b E idx wc rest st st1 e hex hc hnw]
            exact h1
          | ok u =>
            cases hcmd : wc.command with
            | none =>
              rw [upLoop_create_none sname b E idx wc rest st st1 u hex hc hnw hcmd]
              exact sessionsExtend_trans h1 (ih (idx + 1) st1)
            | some cmd =>
              cases hsk : send_keys st1 sname idx cmd with
              | mk st2 r2 =>
                have h2 : sessionsExtend st1 st2 := by
                  have h3 := send_keys_extend st1 sname idx cmd
                  rw [hsk] at h3
                  exact h3
                cases r2 with
                | error e =>
                  rw [upLoop_create_sk_err sname b E idx wc rest st st1 st2 cmd e u
                    hex hc hnw hcmd hsk]
                  exact sessionsExtend_trans h1 h2
                | ok v =>
                  rw [upLoop_create_sk_ok sname b E idx wc rest st st1 st2 cmd u v
                    hex hc hnw hcmd hsk]
                  exact sessionsExtend_trans h1 (sessionsExtend_trans h2 (ih (idx + 1) st2))

theorem upLoop_calls (sname : String) (b : Bool) (E : List String)
    (ws : List WindowConf) (idx : Nat) (st : BackendState) :
    ∀ c ∈ (upLoop sname b E idx ws st).2.1, c.isDestructive = false := by
  induction ws generalizing idx st with
  | nil =>
    intro c hc
    simp [upLoop_nil] at hc
  | cons wc rest ih =>
    cases hex : windowExists wc E with
    | true =>
      rw [upLoop_skip sname b E idx wc rest st hex]
      exact ih (idx + 1) st
    | false =>
      cases hc : (idx == 0 && !b) with
      | true =>
        cases hcmd : wc.command with
        | none =>
          rw [upLoop_consume_none sname b E idx wc rest st hex hc hcmd]
          exact ih (idx + 1) st
        | some cmd =>
          cases hsk : send_keys st sname idx cmd with
          | mk st1 r =>
            cases r with
            | error e =>
              rw [upLoop_consume_err sname b E idx wc rest st st1 cmd e hex hc hcmd hsk]
              intro c hmem
              simp at hmem
              rw [hmem]
              rfl
            | ok u =>
              rw [upLoop_consume_ok sname b E idx wc rest st st1 cmd u hex hc hcmd hsk]
              intro c hmem
              rcases List.mem_cons.mp hmem with h | h
              · rw [h]; rfl
              · exact ih (idx + 1) st1 c h
      | false =>
        cases hnw : new_window st sname wc.name (some idx) with
        | mk st1 r =>
          cases r with
          | error e =>
            rw [upLoop_create_err sname b E idx wc rest st st1 e hex hc hnw]
            intro c hmem
            simp at hmem
            rw [hmem]
            rfl
          | ok u =>
            cases hcmd : wc.command with
            | none =>
              rw [upLoop_create_none sname b E idx wc rest st st1 u hex hc hnw hcmd]
              intro c hmem
              rcases List.mem_cons.mp hmem with h | h
              · rw [h]; rfl
              · exact ih (idx + 1) st1 c h
            | some cmd =>
              cases hsk : send_keys st1 sname idx cmd with
              | mk st2 r2 =>
                cases r2 with
                | error e =>
                  rw [upLoop_create_sk_err sname b E idx wc rest st st1 st2 cmd e u
                    hex hc hnw hcmd hsk]
                  intro c hmem
                  rcases List.mem_cons.mp hmem with h | h
                  · rw [h]; rfl
                  · simp at h
                    rw [h]
                    rfl
                | ok v =>
                  rw [upLoop_create_sk_ok sname b E idx wc rest st st1 st2 cmd u v
                    hex hc hnw hcmd hsk]
                  intro c hmem
                  rcases List.mem_cons.mp hmem with h | h
                  · rw [h]; rfl
                  · rcases List.mem_cons.mp h with h2 | h2
                    · rw [h2]; rfl
                    · exact ih (idx + 1) st2 c h2

theorem new_window_ok_inv (st : BackendState) (s : String) (wn : Option String)
    (i : Option Nat) (st1 : BackendState) (u : Unit)
    (h : new_window st s wn i = (st1, .ok u)) :
    ∃ w, lookupSession st.sessions s = some w ∧
      st1 = ({ st with sessions :=
                 updateSession st.sessions s (fun ws => ws ++ [wn.getD "unnamed"]) }) := by
  cases hn : lookupSession st.sessions s with
  | none =>
    rw [new_window_of_none st s wn i hn] at h
    simp at h
  | some w =>
    rw [new_window_of_some st s wn i w hn] at h
    simp at h
    exact ⟨w, rfl, h.symm⟩

theorem upLoop_ok_names (sname : String) (b : Bool) (E : List String)
    (ws : List WindowConf) (idx : Nat) (st : BackendState)
    (hok : (upLoop sname b E idx ws st).2.2 = .ok ()) :
    ∀ j wc n, ws[j]? = some wc → wc.name = some n →
      n ∈ E ∨ (idx + j = 0 ∧ b = false) ∨
        ∃ wl, lookupSession (upLoop sname b E idx ws st).1.sessions sname = some wl ∧
          n ∈ wl := by
  induction ws generalizing idx st with
  | nil =>
    intro j wc n hj
    simp at hj
  | cons wc0 rest ih =>
    intro j wc n hj hn
    cases hex : windowExists wc0 E with
    | true =>
      rw [upLoop_skip sname b E idx wc0 rest st hex] at hok ⊢
      cases j with
      | zero =>
        simp at hj
        subst hj
        left
        simp [windowExists, hn] at hex
        exact (any_beq_iff_mem E n).mp (by simpa using hex)
      | succ j' =>
        simp at hj
        rcases ih (idx + 1) st hok j' wc n hj hn with h | h | h
        · exact Or.inl h
        · exact absurd h.1 (by omega)
        · exact Or.inr (Or.inr h)
    | false =>
      cases hc : (idx == 0 && !b) with
      | true =>
        have hc2 : idx = 0 ∧ b = false := by
          simp [Bool.and_eq_true] at hc
          exact hc
        cases hcmd : wc0.command with
        | none =>
          rw [upLoop_consume_none sname b E idx wc0 rest st hex hc hcmd] at hok ⊢
          cases j with
          | zero => exact Or.inr (Or.inl ⟨by omega, hc2.2⟩)
          | succ j' =>
            simp at hj
            rcases ih (idx + 1) st hok j' wc n hj hn with h | h | h
            · exact Or.inl h
            · exact absurd h.1 (by omega)
            · exact Or.inr (Or.inr h)
        | some cmd =>
          cases hsk : send_keys st sname idx cmd with
          | mk st1 r =>
            cases r with
            | error e =>
              rw [upLoop_consume_err sname b E idx wc0 rest st st1 cmd e hex hc hcmd hsk]
                at hok
              simp at hok
            | ok u =>
              rw [upLoop_consume_ok sname b E idx wc0 rest st st1 cmd u hex hc hcmd hsk]
                at hok ⊢
              cases j with
              | zero => exact Or.inr (Or.inl ⟨by omega, hc2.2⟩)
              | succ j' =>
                simp at hj
                rcases ih (idx + 1) st1 hok j' wc n hj hn with h | h | h
                · exact Or.inl h
                · exact absurd h.1 (by omega)
                · exact Or.inr (Or.inr h)
      | false =>
        cases hnw : new_window st sname wc0.name (some idx) with
        | mk st1 r =>
          cases r with
          | error e =>
            rw [upLoop_create_err sname b E idx wc0 rest st st1 e hex hc hnw] at hok
            simp at hok
          | ok u =>
            obtain ⟨w, hw, hst1⟩ := new_window_ok_inv st sname wc0.name (some idx) st1 u hnw
            cases hcmd : wc0.command with
            | none =>
              rw [upLoop_create_none sname b E idx wc0 rest st st1 u hex hc hnw hcmd]
                at hok ⊢
              cases j with
              | zero =>
                simp at hj
                subst hj
                have hl1 : lookupSession st1.sessions sname =
                    some (w ++ [n]) := by
                  rw [hst1]
                  simp [lookupSession_updateSession, hw, hn]
                obtain ⟨t, ht⟩ :=
                  upLoop_extend sname b E rest (idx + 1) st1 sname (w ++ [n]) hl1
                refine Or.inr (Or.inr ⟨(w ++ [n]) ++ t, ht, ?_⟩)
                simp
              | succ j' =>
                simp at hj
                rcases ih (idx + 1) st1 hok j' wc n hj hn with h | h | h
                · exact Or.inl h
                · exact absurd h.1 (by omega)
                · exact Or.inr (Or.inr h)
            | some cmd =>
              cases hsk : send_keys st1 sname idx cmd with
              | mk st2 r2 =>
                cases r2 with
                | error e =>
                  rw [upLoop_create_sk_err sname b E idx wc0 rest st st1 st2 cmd e u
                    hex hc hnw hcmd hsk] at hok
                  simp at hok
                | ok v =>
                  rw [upLoop_create_sk_ok sname b E idx wc0 rest st st1 st2 cmd u v
                    hex hc hnw hcmd hsk] at hok ⊢
                  have hs12 : st2.sessions = st1.sessions := by
                    have h3 := send_keys_fst_sessions st1 sname idx cmd
                    rw [hsk] at h3
                    exact h3
                  cases j with
                  | zero =>
                    simp at hj
                    subst hj
                    have hl2 : lookupSession st2.sessions sname =
                        some (w ++ [n]) := by
                      rw [hs12, hst1]
                      simp [lookupSession_updateSession, hw, hn]
                    obtain ⟨t, ht⟩ :=
                      upLoop_extend sname b E rest (idx + 1) st2 sname (w ++ [n]) hl2
                    refine Or.inr (Or.inr ⟨(w ++ [n]) ++ t, ht, ?_⟩)
                    simp
                  | succ j' =>
                    simp at hj
                    rcases ih (idx + 1) st2 hok j' wc n hj hn with h | h | h
                    · exact Or.inl h
                    · exact absurd h.1 (by omega)
                    · exact Or.inr (Or.inr h)

theorem upLoop_noop (sname : String) (b : Bool) (E : List String)
    (ws : List WindowConf) (idx : Nat) (st : BackendState)
    (h : ∀ wc ∈ ws, ∃ n, wc.name = some n ∧ n ∈ E) :
    upLoop sname b E idx ws st = (st, [], .ok ()) := by
  induction ws generalizing idx with
  | nil => exact upLoop_nil sname b E idx st
  | cons wc rest ih =>
    obtain ⟨n, hn, hmem⟩ := h wc (List.mem_cons_self wc rest)
    have hex : windowExists wc E = true := by
      simpa [windowExists, hn] using hmem
    rw [upLoop_skip sname b E idx wc rest st hex]
    exact ih (idx + 1) (fun w hw => h w (List.mem_cons_of_mem wc hw))

/-! ### Branch equations for the reconciler entry points -/

theorem run_up_unavailable (config : Config) (st : BackendState)
    (h : st.available = false) :
    run_up config st = (st, [Call.checkAvailable],
      .error "tmux is not installed or not available in PATH") := by
  rw [run_up]
  simp [check_available, h]

theorem run_up_of_existing (config : Config) (st : BackendState) (L : List String)
    (ha : st.available = true) (h : lookupSession st.sessions config.name = some L) :
    run_up config st =
      ((upLoop config.name true L 0 config.window st).1,
        [Call.checkAvailable, Call.hasSession config.name, Call.listWindows config.name] ++
          (upLoop config.name true L 0 config.window st).2.1,
        (upLoop config.name true L 0 config.window st).2.2) := by
  rw [run_up]
  cases hu : upLoop config.name true L 0 config.window st with
  | mk st2 p =>
    cases p with
    | mk tr r => simp [check_available, ha, has_session, h, list_windows, hu]

theorem run_up_of_fresh (config : Config) (st : BackendState)
    (ha : st.available = true) (h : lookupSession st.sessions config.name = none) :
    run_up config st =
      ((upLoop config.name false [] 0 config.window
          ({ st with sessions := insertSession st.sessions config.name ["bash"] })).1,
        [Call.checkAvailable, Call.hasSession config.name, Call.newSession config.name] ++
          (upLoop config.name false [] 0 config.window
            ({ st with sessions := insertSession st.sessions config.name ["bash"] })).2.1,
        (upLoop config.name false [] 0 config.window
          ({ st with sessions := insertSession st.sessions config.name ["bash"] })).2.2) := by
  rw [run_up]
  have hns := new_session_of_none st config.name true h
  cases hu : upLoop config.name false [] 0 config.window
      ({ st with sessions := insertSession st.sessions config.name ["bash"] }) with
  | mk st2 p =>
    cases p with
    | mk tr r =>
      rw [ha] at hu
      simp [check_available, ha, has_session, h, hns, hu]

theorem run_down_unavailable (config : Config) (st : BackendState)
    (h : st.available = false) :
    run_down config st = (st, [Call.checkAvailable],
      .error "tmux is not installed or not available in PATH") := by
  rw [run_down]
  simp [check_available, h]

theorem run_down_absent (config : Config) (st : BackendState)
    (ha : st.available = true) (h : lookupSession st.sessions config.name = none) :
    run_down config st = (st, [Call.checkAvailable, Call.hasSession config.name], .ok ()) := by
  rw [run_down]
  simp [check_available, ha, has_session, h]

theorem run_down_present (config : Config) (st : BackendState) (L : List String)
    (ha : st.available = true) (h : lookupSession st.sessions config.name = some L) :
    run_down config st =
      (({ st with sessions := removeSession st.sessions config.name }),
        [Call.checkAvailable, Call.hasSession config.name, Call.killSession config.name],
        .ok ()) := by
  rw [run_down]
  have hk : kill_session st config.name =
      ({ st with sessions := removeSession st.sessions config.name }, .ok ()) :=
    kill_session_of_some st config.name L h
  simp [check_available, ha, has_session, h, hk]

theorem run_status_unavailable (config : Config) (st : BackendState)
    (h : st.available = false) :
    run_status config st = .error "tmux is not installed or not available in PATH" := by
  rw [run_status]
  simp [check_available, h]

theorem run_status_absent (config : Config) (st : BackendState)
    (ha : st.available = true) (h : lookupSession st.sessions config.name = none) :
    run_status config st = .ok .notRunning := by
  rw [run_status]
  simp [check_available, ha, has_session, h]

theorem run_status_present (config : Config) (st : BackendState) (L : List String)
    (ha : st.available = true) (h : lookupSession st.sessions config.name = some L) :
    run_status config st = .ok (.running (statusMarks L 0 config.window)) := by
  rw [run_status]
  simp [check_available, ha, has_session, h, list_windows]

theorem option_map_self (o : Option String) : o.map (fun s => s) = o := by
  cases o <;> rfl

theorem statusMarks_getElem (live : List String) (idx : Nat) (ws : List WindowConf)
    (j : Nat) (wc : WindowConf) (hj : ws[j]? = some wc) :
    (statusMarks live idx ws)[j]? =
      some (wc.name.getD "unnamed",
        live.any (fun w => w == wc.name.getD "unnamed") ||
          (decide (idx + j < live.length) && wc.name.getD "unnamed" == "unnamed")) := by
  induction ws generalizing idx j with
  | nil => simp at hj
  | cons wc0 rest ih =>
    cases j with
    | zero =>
      simp at hj
      subst hj
      simp [statusMarks, option_map_self]
    | succ j' =>
      simp at hj
      have ih2 := ih (idx + 1) j' hj
      rw [statusMarks]
      simp only [List.getElem?_cons_succ]
      rw [ih2]
      have : idx + 1 + j' = idx + (j' + 1) := by omega
      rw [this]

/-! ### Availability is never changed by the reconciler's operations -/

theorem new_window_fst_available (st : BackendState) (s : String) (wn : Option String)
    (i : Option Nat) : (new_window st s wn i).1.available = st.available := by
  cases h : lookupSession st.sessions s with
  | none => simp [new_window_of_none st s wn i h]
  | some w => simp [new_window_of_some st s wn i w h]

theorem send_keys_fst_available (st : BackendState) (s : String) (i : Nat)
    (c : List String) : (send_keys st s i c).1.available = st.available := by
  cases h : lookupSession st.sessions s with
  | none => simp [send_keys_of_none st s i c h]
  | some w => simp [send_keys_of_some st s i c w h]

theorem upLoop_available (sname : String) (b : Bool) (E : List String)
    (ws : List WindowConf) (idx : Nat) (st : BackendState) :
    (upLoop sname b E idx ws st).1.available = st.available := by
  induction ws generalizing idx st with
  | nil => rfl
  | cons wc rest ih =>
    cases hex : windowExists wc E with
    | true =>
      rw [upLoop_skip sname b E idx wc rest st hex]
      exact ih (idx + 1) st
    | false =>
      cases hc : (idx == 0 && !b) with
      | true =>
        cases hcmd : wc.command with
        | none =>
          rw [upLoop_consume_none sname b E idx wc rest st hex hc hcmd]
          exact ih (idx + 1) st
        | some cmd =>
          cases hsk : send_keys st sname idx cmd with
          | mk st1 r =>
            have h1 : st1.available = st.available := by
              have h2 := send_keys_fst_available st sname idx cmd
              rw [hsk] at h2
              exact h2
            cases r with
            | error e =>
              rw [upLoop_consume_err sname b E idx wc rest st st1 cmd e hex hc hcmd hsk]
              exact h1
            | ok u =>
              rw [upLoop_consume_ok sname b E idx wc rest st st1 cmd u hex hc hcmd hsk]
              rw [ih (idx + 1) st1]
              exact h1
      | false =>
        cases hnw : new_window st sname wc.name (some idx) with
        | mk st1 r =>
          have h1 : st1.available = st.available := by
            have h2 := new_window_fst_available st sname wc.name (some idx)
            rw [hnw] at h2
            exact h2
          cases r with
          | error e =>
            rw [upLoop_create_err sname b E idx wc rest st st1 e hex hc hnw]
            exact h1
          | ok u =>
            cases hcmd : wc.command with
            | none =>
              rw [upLoop_create_none sname b E idx wc rest st st1 u hex hc hnw hcmd]
              rw [ih (idx + 1) st1]
              exact h1
            | some cmd =>
              cases hsk : send_keys st1 sname idx cmd with
              | mk st2 r2 =>
                have h2 : st2.available = st1.available := by
                  have h3 := send_keys_fst_available st1 sname idx cmd
                  rw [hsk] at h3
                  exact h3
                cases r2 with
                | error e =>
                  rw [upLoop_create_sk_err sname b E idx wc rest st st1 st2 cmd e u
                    hex hc hnw hcmd hsk]
                  rw [h2]
                  exact h1
                | ok v =>
                  rw [upLoop_create_sk_ok sname b E idx wc rest st st1 st2 cmd u v
                    hex hc hnw hcmd hsk]
                  rw [ih (idx + 1) st2, h2]
                  exact h1

/-! ### Claims -/

/-- C5: in `run_status` on a running session, a declared window is marked
running if and only if its effective name (declared name, else the
fallback `"unnamed"`) appears among the live window names, or the
effective name is literally `"unnamed"` and the window's positional index
in the declaration is strictly below the number of live windows; for every
declaration and every live window list. -/
theorem claim5_status_running_iff (config : Config) (st : BackendState)
    (live : List String) (j : Nat) (wc : WindowConf)
    (ha : st.available = true)
    (hl : lookupSession st.sessions config.name = some live)
    (hj : config.window[j]? = some wc) :
    ∃ marks, run_status config st = .ok (.running marks) ∧
      marks[j]? = some (wc.name.getD "unnamed",
        decide (wc.name.getD "unnamed" ∈ live ∨
          (wc.name.getD "unnamed" = "unnamed" ∧ j < live.length))) := by
  refine ⟨statusMarks live 0 config.window,
    run_status_present config st live ha hl, ?_⟩
  rw [statusMarks_getElem live 0 config.window j wc hj]
  have hb : (live.any (fun w => w == wc.name.getD "unnamed") ||
      (decide (0 + j < live.length) && wc.name.getD "unnamed" == "unnamed")) =
      decide (wc.name.getD "unnamed" ∈ live ∨
        (wc.name.getD "unnamed" = "unnamed" ∧ j < live.length)) := by
    apply Bool.eq_iff_iff.mpr
    simp only [Bool.or_eq_true, Bool.and_eq_true, any_beq_iff_mem, decide_eq_true_eq,
      beq_iff_eq, Nat.zero_add]
    tauto
  rw [hb]

/-- Witness for C5 at a concrete running session. -/
theorem claim5_status_running_iff_witness :
    ∃ marks, run_status cfgOne stOneSession = .ok (.running marks) ∧
      marks[0]? = some ("editor",
        decide ((("editor" : String) ∈ (["bash"] : List String)) ∨
          (("editor" : String) = "unnamed" ∧ 0 < ([("bash" : String)] : List String).length))) :=
  claim5_status_running_iff cfgOne stOneSession ["bash"] 0 wEditor rfl (by decide) (by decide)

/-- C6: `window remove` with a name matching no declaration fails with the
not-found error, and `window remove` with no name fails with the
validation error, for every declaration; in both cases the result is an
error, so no configuration is produced to be written to disk. -/
theorem claim6_window_remove_errors (config : Config) (name : String) :
    ((config.window.any (fun w => w.name == some name)) = false →
      run_window_remove config (some name) =
        .error ("Window \x27" ++ name ++ "\x27 not found in config")) ∧
    run_window_remove config none = .error "Must specify \x2d-name to remove a window" := by
  constructor
  · intro h
    rw [run_window_remove]
    have hfil : config.window.filter
        (fun w => (w.name.map (fun n => n != name)).getD true) = config.window := by
      apply List.filter_eq_self.mpr
      intro w hw
      have hwname := List.any_eq_false.mp h w hw
      cases hN : w.name with
      | none => simp
      | some n =>
        rw [hN] at hwname
        simp only [beq_iff_eq, Option.some.injEq] at hwname
        simp [hwname]
    rw [hfil]
    simp
  · rfl

/-- Witness for C6 at a concrete config with no window named `"x"`. -/
theorem claim6_window_remove_errors_witness :
    run_window_remove cfgOne (some "x") =
      .error ("Window \x27" ++ "x" ++ "\x27 not found in config") :=
  (claim6_window_remove_errors cfgOne "x").1 (by decide)

/-- C7: `newSession` fails (leaving the state unchanged) when a session of
that name exists, and on success the created session holds exactly one
window, the implicit first window. -/
theorem claim7_new_session_contract (st : BackendState) (name : String) (d : Bool) :
    (has_session st name = true →
      new_session st name d =
        (st, .error ("Session \x27" ++ name ++ "\x27 already exists"))) ∧
    (has_session st name = false →
      (new_session st name d).2 = .ok () ∧
        ∃ ws, lookupSession (new_session st name d).1.sessions name = some ws ∧
          ws.length = 1) := by
  constructor
  · intro h
    rw [has_session] at h
    obtain ⟨w, hw⟩ := Option.isSome_iff_exists.mp h
    exact new_session_of_some st name d w hw
  · intro h
    rw [has_session] at h
    have hn : lookupSession st.sessions name = none := by
      cases hx : lookupSession st.sessions name with
      | none => rfl
      | some w => rw [hx] at h; simp at h
    rw [new_session_of_none st name d hn]
    exact ⟨rfl, ["bash"], lookupSession_insertSession_self st.sessions name ["bash"], rfl⟩

/-- Witness for C7: both halves at concrete states. -/
theorem claim7_new_session_contract_witness :
    new_session stOneSession "s" true =
      (stOneSession, .error ("Session \x27" ++ "s" ++ "\x27 already exists")) ∧
    (new_session emptyState "s" true).2 = .ok () := by
  constructor
  · exact (claim7_new_session_contract stOneSession "s" true).1 (by decide)
  · exact ((claim7_new_session_contract emptyState "s" true).2 (by decide)).1

/-- C8: `sendKeys` submits the command joined with single spaces (no
quoting or escaping) followed by an Enter keystroke (`C-m`) to the window
at the given index (the real backend's argv), and the in-memory backend
fails when the session does not exist, else records the submission. -/
theorem claim8_send_keys_contract (st : BackendState) (session : String) (idx : Nat)
    (command : List String) :
    send_keys_argv session idx command =
      ["send-keys", "-t", session ++ ":" ++ toString idx,
        String.intercalate " " command, "C-m"] ∧
    (has_session st session = false →
      send_keys st session idx command =
        (st, .error ("Session \x27" ++ session ++ "\x27 not found"))) ∧
    (has_session st session = true →
      send_keys st session idx command =
        (({ st with commandsSent := st.commandsSent ++ [(session, idx, command)] }),
          .ok ())) := by
  refine ⟨rfl, ?_, ?_⟩
  · intro h
    rw [has_session] at h
    have hn : lookupSession st.sessions session = none := by
      cases hx : lookupSession st.sessions session with
      | none => rfl
      | some w => rw [hx] at h; simp at h
    exact send_keys_of_none st session idx command hn
  · intro h
    rw [has_session] at h
    obtain ⟨w, hw⟩ := Option.isSome_iff_exists.mp h
    exact send_keys_of_some st session idx command w hw

/-- Witness for C8 at a concrete state and multi-word command. -/
theorem claim8_send_keys_contract_witness :
    send_keys stOneSession "s" 0 ["npm", "run", "dev"] =
      (({ stOneSession with
          commandsSent := stOneSession.commandsSent ++ [("s", 0, ["npm", "run", "dev"])] }),
        .ok ()) :=
  (claim8_send_keys_contract stOneSession "s" 0 ["npm", "run", "dev"]).2.2 (by decide)

/-- C3 counterexample: with the external binary unavailable, `run_down`
fails, and `run_restart` returns exactly `run_down`'s outcome — its trace
is the single `checkAvailable` call of `run_down`, with no trace of
`run_up` (which always begins by issuing its own `checkAvailable`), so
`run_up` was not invoked. -/
theorem claim3_restart_cex :
    run_down cfgOne downState =
      (downState, [Call.checkAvailable],
        .error "tmux is not installed or not available in PATH") ∧
    run_restart cfgOne downState =
      (downState, [Call.checkAvailable],
        .error "tmux is not installed or not available in PATH") ∧
    (run_up cfgOne downState).2.1 = [Call.checkAvailable] := by
  refine ⟨by decide, by decide, by decide⟩

/-- C3 (amended): `run_restart` runs `run_down` and then `run_up`, but the
`?` operator propagates a `run_down` error: when `run_down` fails,
`run_restart` returns `run_down`'s state, trace and error unchanged and
`run_up` is not invoked; only when `run_down` succeeds does `run_up` run,
on the state `run_down` produced. -/
theorem claim3_restart_sequencing (config : Config) (st : BackendState) :
    (∀ st1 tr1 e, run_down config st = (st1, tr1, .error e) →
      run_restart config st = (st1, tr1, .error e)) ∧
    (∀ st1 tr1, run_down config st = (st1, tr1, .ok ()) →
      run_restart config st =
        ((run_up config st1).1, tr1 ++ (run_up config st1).2.1,
          (run_up config st1).2.2)) := by
  constructor
  · intro st1 tr1 e h
    rw [run_restart, h]
  · intro st1 tr1 h
    rw [run_restart, h]

/-- Witness for C3's amended sequencing at a concrete failing `run_down`. -/
theorem claim3_restart_sequencing_witness :
    run_restart cfgOne downState =
      (downState, [Call.checkAvailable],
        .error "tmux is not installed or not available in PATH") :=
  (claim3_restart_sequencing cfgOne downState).1 downState [Call.checkAvailable]
    "tmux is not installed or not available in PATH" (by decide)

/-- C4 counterexample: removing name `"a"` from a declaration holding two
windows named `"a"` deletes both of them — the later declaration with the
same name is not left in place as the claim states. -/
theorem claim4_window_remove_cex :
    run_window_remove cfgDup (some "a") = .ok ({ name := "s", window := [] }) ∧
    run_window_remove cfgDup (some "a") ≠ .ok ({ name := "s", window := [wA2] }) := by
  refine ⟨by decide, by decide⟩

/-- C4 (amended): `window remove` deletes every window declaration whose
name matches the supplied name exactly (not only the first), and fails
with the not-found error when no declaration matches. -/
theorem claim4_window_remove_all (config : Config) (name : String) :
    ((config.window.any (fun w => w.name == some name)) = true →
      run_window_remove config (some name) =
        .ok ({ config with
          window := config.window.filter (fun w => !(w.name == some name)) })) ∧
    ((config.window.any (fun w => w.name == some name)) = false →
      run_window_remove config (some name) =
        .error ("Window \x27" ++ name ++ "\x27 not found in config")) := by
  have hpred : (fun (w : WindowConf) => (w.name.map (fun n => n != name)).getD true) =
      (fun (w : WindowConf) => !(w.name == some name)) := by
    funext w
    cases hN : w.name with
    | none => simp
    | some n => simp [bne]
  constructor
  · intro h
    obtain ⟨w0, hw0, hw0m⟩ := List.any_eq_true.mp h
    rw [run_window_remove, hpred]
    have hne : (config.window.filter (fun w => !(w.name == some name))).length ≠
        config.window.length := by
      intro heq
      have hself : config.window.filter (fun w => !(w.name == some name)) =
          config.window :=
        (List.filter_sublist config.window).eq_of_length heq
      have hkeep := List.filter_eq_self.mp hself w0 hw0
      rw [hw0m] at hkeep
      simp at hkeep
    simp [hne]
  · intro h
    rw [run_window_remove, hpred]
    have hfil : config.window.filter (fun w => !(w.name == some name)) =
        config.window := by
      apply List.filter_eq_self.mpr
      intro w hw
      have hwname := List.any_eq_false.mp h w hw
      simp [hwname]
    rw [hfil]
    simp

/-- Witness for C4's amended removal at a concrete duplicate-name config. -/
theorem claim4_window_remove_all_witness :
    run_window_remove cfgDup (some "a") =
      .ok ({ cfgDup with window := cfgDup.window.filter (fun w => !(w.name == some "a")) }) :=
  (claim4_window_remove_all cfgDup "a").1 (by decide)

/-- C9: after a successful `run_down` the session no longer exists, so a
subsequent `run_status` reports not running; and `run_down` on an absent
session succeeds, leaves the state unchanged, and issues only the two
query calls — no `killSession`. -/
theorem claim9_down_then_status (config : Config) (st : BackendState) :
    (∀ st1 tr, run_down config st = (st1, tr, .ok ()) →
      has_session st1 config.name = false ∧ run_status config st1 = .ok .notRunning) ∧
    (st.available = true → has_session st config.name = false →
      run_down config st =
        (st, [Call.checkAvailable, Call.hasSession config.name], .ok ())) := by
  constructor
  · intro st1 tr h
    cases ha : st.available with
    | false =>
      rw [run_down_unavailable config st ha] at h
      simp at h
    | true =>
      cases hl : lookupSession st.sessions config.name with
      | none =>
        rw [run_down_absent config st ha hl] at h
        simp only [Prod.mk.injEq] at h
        obtain ⟨h1, _, _⟩ := h
        subst h1
        refine ⟨by simp [has_session, hl], run_status_absent config st ha hl⟩
      | some L =>
        rw [run_down_present config st L ha hl] at h
        simp only [Prod.mk.injEq] at h
        obtain ⟨h1, _, _⟩ := h
        subst h1
        have hgone : lookupSession
            ({ st with sessions := removeSession st.sessions config.name }).sessions
            config.name = none :=
          lookupSession_removeSession_self st.sessions config.name
        refine ⟨by simp [has_session, hgone], ?_⟩
        exact run_status_absent config
          ({ st with sessions := removeSession st.sessions config.name }) ha hgone
  · intro ha h
    have hl : lookupSession st.sessions config.name = none := by
      rw [has_session] at h
      cases hx : lookupSession st.sessions config.name with
      | none => rfl
      | some w => rw [hx] at h; simp at h
    exact run_down_absent config st ha hl

/-- Witness for C9: both halves at concrete states. -/
theorem claim9_down_then_status_witness :
    (has_session emptyState "s" = false ∧
      run_status cfgOne emptyState = .ok .notRunning) ∧
    run_down cfgOne emptyState =
      (emptyState, [Call.checkAvailable, Call.hasSession "s"], .ok ()) := by
  constructor
  · exact (claim9_down_then_status cfgOne stOneSession).1 emptyState
      [Call.checkAvailable, Call.hasSession "s", Call.killSession "s"] (by decide)
  · exact (claim9_down_then_status cfgOne emptyState).2 rfl (by decide)

/-- C10: `run_up` is purely additive on live state: it never issues a
`killSession`, `killWindow` or `renameWindow` call, every session present
before is still present afterwards, and every session's window-name list
before is an initial segment of its list afterwards — for every
declaration and every initial state, whether or not the run succeeds. -/
theorem claim10_run_up_additive (config : Config) (st : BackendState) :
    (∀ c ∈ (run_up config st).2.1, c.isDestructive = false) ∧
    sessionsExtend st (run_up config st).1 := by
  cases ha : st.available with
  | false =>
    rw [run_up_unavailable config st ha]
    constructor
    · intro c hc
      simp at hc
      rw [hc]
      rfl
    · exact sessionsExtend_refl st
  | true =>
    cases hl : lookupSession st.sessions config.name with
    | some L =>
      rw [run_up_of_existing config st L ha hl]
      constructor
      · intro c hc
        simp only [List.mem_append, List.mem_cons, List.mem_singleton] at hc
        rcases hc with ((hc | hc | hc) | hc)
        · rw [hc]; rfl
        · rw [hc]; rfl
        · simp at hc; rw [hc]; rfl
        · exact upLoop_calls config.name true L config.window 0 st c hc
      · exact upLoop_extend config.name true L config.window 0 st
    | none =>
      rw [run_up_of_fresh config st ha hl]
      have h1 : sessionsExtend st
          ({ st with sessions := insertSession st.sessions config.name ["bash"] }) := by
        intro s ws hws
        have hs : s ≠ config.name := by
          intro he
          rw [he, hl] at hws
          exact Option.noConfusion hws
        refine ⟨[], ?_⟩
        show lookupSession (insertSession st.sessions config.name ["bash"]) s = some (ws ++ [])
        rw [lookupSession_insertSession_other st.sessions config.name s ["bash"] hs]
        simp [hws]
      constructor
      · intro c hc
        simp only [List.mem_append, List.mem_cons, List.mem_singleton] at hc
        rcases hc with ((hc | hc | hc) | hc)
        · rw [hc]; rfl
        · rw [hc]; rfl
        · simp at hc; rw [hc]; rfl
        · exact upLoop_calls config.name false [] config.window 0
            ({ st with sessions := insertSession st.sessions config.name ["bash"] }) c hc
      · exact sessionsExtend_trans h1
          (upLoop_extend config.name false [] config.window 0
            ({ st with sessions := insertSession st.sessions config.name ["bash"] }))

/-- Witness for C10: the extension property instantiated at a concrete
pre-existing session. -/
theorem claim10_run_up_additive_witness :
    ∃ t, lookupSession ((run_up cfgOne stOneSession).1).sessions "s" =
      some (["bash"] ++ t) :=
  (claim10_run_up_additive cfgOne stOneSession).2 "s" ["bash"] (by decide)

/-- C2 counterexample: for the spec's own two-window scenario against an
empty backend, `run_up` succeeds but the first declared name `"editor"`
is not among the live window names — the index-0 declaration is mapped
onto the implicit first window (`"bash"` in the in-memory backend), which
is never renamed. -/
theorem claim2_up_superset_cex :
    (run_up cfgMulti emptyState).2.2 = .ok () ∧
    lookupSession ((run_up cfgMulti emptyState).1).sessions "multi-window" =
      some ["bash", "server"] ∧
    ("editor" : String) ∉ (["bash", "server"] : List String) := by
  refine ⟨by decide, by decide, by decide⟩

/-- C2 (amended): for a declaration whose windows all have names and a
previously nonexistent session, a successful `run_up` leaves a live
session whose window-name list contains every declared name at index ≥ 1;
the index-0 declared name is consumed by the implicit first window and
need not appear (see the counterexample). -/
theorem claim2_up_fresh_names (config : Config) (st stF : BackendState) (tr : List Call)
    (hall : ∀ wc ∈ config.window, wc.name.isSome = true)
    (hno : has_session st config.name = false)
    (hok : run_up config st = (stF, tr, .ok ())) :
    ∀ j wc n, config.window[j]? = some wc → wc.name = some n → 1 ≤ j →
      ∃ wl, lookupSession stF.sessions config.name = some wl ∧ n ∈ wl := by
  cases ha : st.available with
  | false =>
    rw [run_up_unavailable config st ha] at hok
    simp at hok
  | true =>
    have hl : lookupSession st.sessions config.name = none := by
      rw [has_session] at hno
      cases hx : lookupSession st.sessions config.name with
      | none => rfl
      | some w => rw [hx] at hno; simp at hno
    rw [run_up_of_fresh config st ha hl] at hok
    simp only [Prod.mk.injEq] at hok
    obtain ⟨h1, _, h3⟩ := hok
    intro j wc n hj hn hj1
    rcases upLoop_ok_names config.name false [] config.window 0
        ({ st with sessions := insertSession st.sessions config.name ["bash"] })
        h3 j wc n hj hn with h | h | h
    · simp at h
    · exact absurd h.1 (by omega)
    · rw [h1] at h
      exact h

/-- Witness for C2's amended statement at the spec's two-window scenario. -/
theorem claim2_up_fresh_names_witness :
    ∃ wl, lookupSession stMultiAfter.sessions "multi-window" = some wl ∧
      ("server" : String) ∈ wl :=
  claim2_up_fresh_names cfgMulti emptyState stMultiAfter
    [Call.checkAvailable, Call.hasSession "multi-window", Call.newSession "multi-window",
      Call.sendKeys "multi-window" 0 ["vim"], Call.newWindow "multi-window" (some "server") 1,
      Call.sendKeys "multi-window" 1 ["npm", "run", "dev"]]
    (by decide) (by decide) (by decide) 1 wServer "server" (by decide) (by decide) (by decide)

/-- C1 counterexample: against an empty backend the first `run_up` on a
one-window declaration succeeds, but a second `run_up` changes the
observable state (it re-creates the index-0 window under its declared
name and re-sends its command), so the two runs are not idempotent as
claimed for every initial state. -/
theorem claim1_up_idempotent_cex :
    (run_up cfgOne emptyState).2.2 = .ok () ∧
    (run_up cfgOne (run_up cfgOne emptyState).1).1 ≠ (run_up cfgOne emptyState).1 := by
  refine ⟨by decide, by decide⟩

/-- C1 (amended): when the session already exists in the backend and every
declared window has a name, `run_up` is idempotent: after a first
successful run, a second run returns the same state and issues only the
three query calls `checkAvailable`, `hasSession`, `listWindows` — in
particular no `newWindow` and no `sendKeys` for any declared window, all
of whose names are by then live. Without those two conditions idempotence
fails (see the counterexample): a fresh session's index-0 declaration is
re-created and its command re-sent by the second run. -/
theorem claim1_up_idempotent (config : Config) (st st1 : BackendState) (tr1 : List Call)
    (hall : ∀ wc ∈ config.window, wc.name.isSome = true)
    (hex : has_session st config.name = true)
    (hok : run_up config st = (st1, tr1, .ok ())) :
    run_up config st1 =
      (st1, [Call.checkAvailable, Call.hasSession config.name,
        Call.listWindows config.name], .ok ()) := by
  cases ha : st.available with
  | false =>
    rw [run_up_unavailable config st ha] at hok
    simp at hok
  | true =>
    obtain ⟨L0, hl⟩ : ∃ L, lookupSession st.sessions config.name = some L := by
      rw [has_session] at hex
      exact Option.isSome_iff_exists.mp hex
    rw [run_up_of_existing config st L0 ha hl] at hok
    simp only [Prod.mk.injEq] at hok
    obtain ⟨h1, _, h3⟩ := hok
    obtain ⟨t, ht⟩ :=
      upLoop_extend config.name true L0 config.window 0 st config.name L0 hl
    rw [h1] at ht
    have ha1 : st1.available = true := by
      rw [← h1, upLoop_available]
      exact ha
    have hprem : ∀ wc ∈ config.window, ∃ n, wc.name = some n ∧ n ∈ (L0 ++ t) := by
      intro wc hwc
      obtain ⟨j, hj⟩ := List.mem_iff_get?.mp hwc
      have hjE : config.window[j]? = some wc := by
        rw [← List.get?_eq_getElem?]
        exact hj
      obtain ⟨n, hn⟩ := Option.isSome_iff_exists.mp (hall wc hwc)
      rcases upLoop_ok_names config.name true L0 config.window 0 st h3 j wc n hjE hn
        with h | h | h
      · exact ⟨n, hn, List.mem_append_left t h⟩
      · exact absurd h.2 (by simp)
      · obtain ⟨wl, hwl, hmem⟩ := h
        rw [h1] at hwl
        rw [ht] at hwl
        have hwleq : wl = L0 ++ t := by
          injection hwl with hh
          exact hh.symm
        exact ⟨n, hn, hwleq ▸ hmem⟩
    rw [run_up_of_existing config st1 (L0 ++ t) ha1 ht]
    rw [upLoop_noop config.name true (L0 ++ t) config.window 0 st1 hprem]
    simp

/-- Witness for C1's amended idempotence at a concrete pre-existing
session. -/
theorem claim1_up_idempotent_witness :
    run_up cfgOne stOneAfter =
      (stOneAfter, [Call.checkAvailable, Call.hasSession "s", Call.listWindows "s"],
        .ok ()) :=
  claim1_up_idempotent cfgOne stOneSession stOneAfter
    [Call.checkAvailable, Call.hasSession "s", Call.listWindows "s",
      Call.newWindow "s" (some "editor") 0, Call.sendKeys "s" 0 ["vim"]]
    (by decide) (by decide) (by decide)
